import Mathlib

/-!
Shallow embedding of FluidNC's command/settings dispatch engine
(`FluidNC/src/ProcessSettings.cpp`), with theorems checking the
natural-language specification against the code.

Strings are modelled as `List Char`; `std::string_view` values that may be
null are modelled as `Option (List Char)` (with `none` for a null view).
Machine integers in this file never overflow the ranges used by the code,
so they are modelled as `Nat`.
-/

namespace FluidNC

/-- Result codes surfaced by the dispatch engine (the members of the C++
`Error` enum that this subsystem uses). -/
inductive Error where
  | Ok
  | InvalidStatement
  | InvalidValue
  | BadNumberFormat
  | NumberRange
  | AuthenticationFailed
  | ConfigurationInvalid
  | IdleError
  | CheckDoor
  | CheckControlPins
  | SingleAxisHoming
  | SettingDisabled
  | SystemGcLock
  | Reset
  deriving DecidableEq, Repr

/-- Caller authentication levels (`WebUI/Authentication.h`). -/
inductive AuthenticationLevel where
  | LEVEL_GUEST
  | LEVEL_USER
  | LEVEL_ADMIN
  deriving DecidableEq, Repr

/-- Entry permissions: WG readable and writable as guest, WU readable and
writable as user and admin, WA readable as user and admin, writable as
admin (comment at the top of ProcessSettings.cpp). -/
inductive Permissions where
  | WG
  | WU
  | WA
  deriving DecidableEq, Repr

/-- Machine operating states read by the guards in ProcessSettings.cpp. -/
inductive State where
  | Idle
  | Alarm
  | CheckMode
  | Homing
  | Cycle
  | Hold
  | Jog
  | SafetyDoor
  | Sleep
  | ConfigAlarm
  | Critical
  deriving DecidableEq, Repr

/-- Shorthand for string literals as character lists. -/
def lc (s : String) : List Char := s.toList

/-- Emptiness test of a possibly-null `std::string_view`.  A null view and a
non-null view of length zero are both `empty()` in C++, so both map to
`true` here; the dispatch code only ever inspects the view through
`value.empty()`. -/
def svEmpty (v : Option (List Char)) : Bool :=
  (v.getD []).isEmpty

/-- The `ENABLE_AUTHENTICATION` variant of `auth_failed`
(ProcessSettings.cpp lines 47..62): Admin never fails; Guest fails unless
the permission is WG; User never fails a read (empty value) and fails a
write exactly when the permission is WA. -/
def auth_failed (perms : Permissions) (value : Option (List Char))
    (auth_level : AuthenticationLevel) : Bool :=
  match auth_level with
  | AuthenticationLevel.LEVEL_ADMIN => false
  | AuthenticationLevel.LEVEL_GUEST => perms != Permissions.WG
  | AuthenticationLevel.LEVEL_USER =>
      if svEmpty value then false else perms == Permissions.WA

/-- The variant of `auth_failed` compiled when authentication is disabled
(ProcessSettings.cpp lines 64..66): it always passes. -/
def auth_failed_disabled (_perms : Permissions) (_value : Option (List Char))
    (_auth_level : AuthenticationLevel) : Bool :=
  false

/-- Authorization truth table written from the spec's words (section 4.2):
Admin is always allowed; Guest is allowed iff the permission is
GuestReadWrite; User is always allowed to read and is allowed to write iff
the permission is not AdminOnlyWrite. -/
def authTableAllows (level : AuthenticationLevel) (perms : Permissions)
    (isWrite : Bool) : Bool :=
  match level with
  | AuthenticationLevel.LEVEL_ADMIN => true
  | AuthenticationLevel.LEVEL_GUEST => perms == Permissions.WG
  | AuthenticationLevel.LEVEL_USER =>
      if isWrite then perms != Permissions.WA else true

/-- Character classified and escaped by `uriEncodeGrblCharacters`
(ProcessSettings.cpp lines 71..94): the GRBL realtime characters and the
escape character itself become URI-style escapes, all else is literal. -/
def encodeChar (c : Char) : List Char :=
  if c = '%' then ['%', '2', '5']
  else if c = '!' then ['%', '2', '1']
  else if c = '?' then ['%', '3', 'F']
  else if c = '~' then ['%', '7', 'E']
  else [c]

/-- Replace GRBL realtime characters with the corresponding URI-style
escape sequence (ProcessSettings.cpp `uriEncodeGrblCharacters`). -/
def uriEncodeGrblCharacters : List Char → List Char
  | [] => []
  | c :: rest => encodeChar c ++ uriEncodeGrblCharacters rest

/-- Value of one hex digit, as decided by `string_util::from_hex` on a
single character; `none` when the character is not a hex digit. -/
def hexVal (c : Char) : Option Nat :=
  if '0' ≤ c ∧ c ≤ '9' then some (c.toNat - 48)
  else if 'a' ≤ c ∧ c ≤ 'f' then some (c.toNat - 87)
  else if 'A' ≤ c ∧ c ≤ 'F' then some (c.toNat - 55)
  else none

/-- Replace URI-style escape sequences like %HH with the character whose
code is the hex number HH (ProcessSettings.cpp `uriDecode`, lines
99..122).  The C++ function accumulates into `static std::string decoded`,
which is never cleared between calls; `buf` is the content of that static
buffer on entry, so the result of a call is the pair (buffer content at
exit, whether a malformed escape was logged).  A `%` followed by fewer
than two characters, or by characters that are not hex digits, stops
decoding at that point. -/
def uriDecode (buf : List Char) : List Char → List Char × Bool
  | [] => (buf, false)
  | c :: rest =>
      if c = '%' then
        match rest with
        | h1 :: h2 :: rest2 =>
            match hexVal h1, hexVal h2 with
            | some a, some b => uriDecode (buf ++ [Char.ofNat (a * 16 + b)]) rest2
            | _, _ => (buf, true)
        | _ => (buf, true)
      else uriDecode (buf ++ [c]) rest

/-- A decode tail is malformed when the `%` that precedes it is followed
by fewer than two characters or by characters that are not hex digits
(the two error paths of `uriDecode`). -/
def malformedTail (t : List Char) : Prop :=
  match t with
  | h1 :: h2 :: _ => hexVal h1 = none ∨ hexVal h2 = none
  | _ => True

/-- The mode toggled by the `$C` command (ProcessSettings.cpp
`toggle_check_mode`, lines 253..272).  The result records the error code,
the state installed by `set_state` when one is, and whether `sys.abort`
was raised (toggling check mode off aborts, which resets the machine). -/
def toggle_check_mode (s : State) : Error × Option State × Bool :=
  if s = State.ConfigAlarm then (Error.ConfigurationInvalid, none, false)
  else if s = State.CheckMode then (Error.Ok, none, true)
  else if s ≠ State.Idle then (Error.IdleError, none, false)
  else (Error.Ok, some State.CheckMode, false)

/-- Case-insensitive exact string comparison
(`string_util::equal_ignore_case`; names are compared case-insensitively
throughout the dispatcher). -/
def eqIgnoreCase (a b : List Char) : Bool :=
  a.map Char.toLower == b.map Char.toLower

/-- A registered Command (`Command::List` entry): canonical name, optional
legacy Grbl name, permission word, `synchronous()` flag, and the bound
action, a function of the optional value string and the caller's
authentication level.  The output channel is not modelled; actions report
through effects and their returned `Error`. -/
structure Cmd where
  name : List Char
  grblName : Option (List Char)
  perms : Permissions
  synchronous : Bool
  action : Option (List Char) → AuthenticationLevel → Error

/-- A registered flat Setting (`Setting::List` entry): canonical name,
optional legacy Grbl name, permission word, current value
(`getStringValue`), compatible-mode value (`getCompatibleValue`), and the
result of `setStringValue` on a given new value. -/
structure SettingE where
  name : List Char
  grblName : Option (List Char)
  perms : Permissions
  stringValue : List Char
  compatibleValue : List Char
  setStringValue : List Char → Error

/-- Outcome of the structured-configuration tree's by-name lookup
(`Configuration::RuntimeSetting` run over `config->group`): it either
handles the key, does not handle it, or raises a parse/assertion failure
that the dispatcher converts to `ConfigurationInvalid`. -/
inductive TreeResult where
  | handled
  | notHandled
  | parseError
  deriving DecidableEq, Repr

/-- Observable actions performed by one dispatch, in order: motion-buffer
drain (`protocol_buffer_synchronize`), a command action invocation, a
structured-config tree write, a `show_setting` display, or a
`setStringValue` mutation. -/
inductive Effect where
  | sync
  | cmdAction (name : List Char) (arg : Option (List Char))
  | treeSet (key : List Char) (value : Option (List Char))
  | showSetting (name value : List Char)
  | setSetting (name newValue : List Char)
  deriving DecidableEq, Repr

/-- The process-wide context consulted by `do_command_or_setting`: whether
the build defines ENABLE_AUTHENTICATION, the command and setting
registries, the structured-configuration tree lookup, the outcome of the
validation/after-parse pass run after a tree write, and the pattern
matcher (`regexMatch` from Regex.cpp, external to this file's source). -/
structure DispatchEnv where
  authEnabled : Bool
  commands : List Cmd
  settings : List SettingE
  tree : List Char → Option (List Char) → TreeResult
  validateOk : Bool
  regexMatch : List Char → List Char → Bool

/-- Key match for a command: canonical name, or legacy Grbl name when one
exists (ProcessSettings.cpp lines 973..974). -/
def cmdKeyMatch (key : List Char) (cp : Cmd) : Bool :=
  eqIgnoreCase cp.name key ||
    (match cp.grblName with
     | some g => eqIgnoreCase g key
     | none => false)

/-- Key match against a setting's canonical name
(ProcessSettings.cpp line 1024). -/
def settingNameMatch (key : List Char) (s : SettingE) : Bool :=
  eqIgnoreCase s.name key

/-- Key match against a setting's legacy Grbl name
(ProcessSettings.cpp line 1041). -/
def settingGrblMatch (key : List Char) (s : SettingE) : Bool :=
  match s.grblName with
  | some g => eqIgnoreCase g key
  | none => false

/-- The handler for all forms of settings commands
(ProcessSettings.cpp `do_command_or_setting`, lines 963..1084), returning
the error code and the ordered list of observable effects.  Resolution:
commands first (with the authentication gate, compiled in or out by
`authEnabled`), then the structured-configuration tree, then flat settings
by canonical name, then flat settings by legacy Grbl name, and finally,
only for a display request, a pattern match over canonical setting
names.  Writes pass the value through `uriDecode`; the static decode
buffer is taken to be empty at the call. -/
def do_command_or_setting (env : DispatchEnv) (key : List Char)
    (value : Option (List Char)) (auth_level : AuthenticationLevel) :
    Error × List Effect :=
  match env.commands.find? (cmdKeyMatch key) with
  | some cp =>
      if (if env.authEnabled then auth_failed cp.perms value auth_level
          else auth_failed_disabled cp.perms value auth_level) then
        (Error.AuthenticationFailed, [])
      else
        let pre := if cp.synchronous then [Effect.sync] else []
        let arg := if svEmpty value then none else value
        (cp.action arg auth_level, pre ++ [Effect.cmdAction cp.name arg])
  | none =>
    match env.tree key value with
    | TreeResult.parseError => (Error.ConfigurationInvalid, [])
    | TreeResult.handled =>
        if !svEmpty value then
          if env.validateOk then (Error.Ok, [Effect.treeSet key value])
          else (Error.ConfigurationInvalid, [Effect.treeSet key value])
        else (Error.Ok, [Effect.treeSet key value])
    | TreeResult.notHandled =>
      match env.settings.find? (settingNameMatch key) with
      | some s =>
          if svEmpty value then
            (Error.Ok, [Effect.showSetting s.name s.stringValue])
          else
            let dec := (uriDecode [] (value.getD [])).fst
            (s.setStringValue dec, [Effect.setSetting s.name dec])
      | none =>
        match env.settings.find? (settingGrblMatch key) with
        | some s =>
            if svEmpty value then
              (Error.Ok, [Effect.showSetting (s.grblName.getD []) s.compatibleValue])
            else
              let dec := (uriDecode [] (value.getD [])).fst
              (s.setStringValue dec, [Effect.setSetting s.name dec])
        | none =>
          if svEmpty value then
            let found := env.settings.filter (fun s => env.regexMatch key s.name)
            if found.isEmpty then (Error.InvalidStatement, [])
            else (Error.Ok, found.map (fun s => Effect.showSetting s.name s.stringValue))
          else (Error.InvalidStatement, [])

/-- Modelled from the spec: `string_util::split` (external to src/) splits
at the first occurrence of the separator; the separator being absent is
distinguished from an empty remainder (`none` marks a null view, giving
read semantics). -/
def splitAtChar (sep : Char) : List Char → List Char × Option (List Char)
  | [] => ([], none)
  | c :: rest =>
      if c = sep then ([], some rest)
      else
        let r := splitAtChar sep rest
        (c :: r.fst, r.snd)

/-- Modelled from the spec: `string_util::trim` (external to src/) removes
surrounding whitespace from the key. -/
def trim (l : List Char) : List Char :=
  ((l.dropWhile Char.isWhitespace).reverse.dropWhile Char.isWhitespace).reverse

/-- Entry point for `$...` and `[...]` lines (ProcessSettings.cpp
`settings_execute_line`, lines 1086..1099): the first character selects
the separator (`]` for `[`-lines, `=` otherwise), the key is the trimmed
text before it, the value the untrimmed text after it (absent when the
separator is absent). -/
def settings_execute_line (env : DispatchEnv) (line : List Char)
    (auth_level : AuthenticationLevel) : Error × List Effect :=
  let sep := if line.head? = some '[' then ']' else '='
  let kv := splitAtChar sep (line.drop 1)
  do_command_or_setting env (trim kv.fst) kv.snd auth_level

/-- Whether some registered command matches the key. -/
def cmdMatches (env : DispatchEnv) (key : List Char) : Bool :=
  env.commands.any (cmdKeyMatch key)

/-- Whether some registered setting's canonical name matches the key. -/
def flatNameMatches (env : DispatchEnv) (key : List Char) : Bool :=
  env.settings.any (settingNameMatch key)

/-- Whether some registered setting's legacy Grbl name matches the key. -/
def flatGrblMatches (env : DispatchEnv) (key : List Char) : Bool :=
  env.settings.any (settingGrblMatch key)

/-- Whether the pattern-match fallback would find at least one setting. -/
def patternMatches (env : DispatchEnv) (key : List Char) : Bool :=
  env.settings.any (fun s => env.regexMatch key s.name)

/-- Modelled from the spec: `Machine::Homing::AllCycles` (external to
src/) is the sentinel axis mask requesting the full default cycle set.
Its only use in src/ is comparison for inequality against genuine axis
masks, which are nonzero, so zero is a faithful sentinel. -/
def AllCycles : Nat := 0

/-- Numeric value of a decimal digit character (`c - '0'`). -/
def digitVal (c : Char) : Nat := c.toNat - 48

/-- The machine context read by the homing entry points: control-pin
lockout and safety-door inputs, the configuration-alarm flag, the global
homing mask, the number of configured axes, which axes allow single-axis
homing (`_homing && _homing->_allow_single_axis`), and the configured
axis mask of each numbered homing cycle
(`Machine::Homing::axis_mask_from_cycle`, zero when the cycle has no
axes). -/
structure HomingEnv where
  pins_block_unlock : Bool
  safety_door_ajar : Bool
  stateIsConfigAlarm : Bool
  homingMask : Nat
  numberAxis : Nat
  allowSingleAxis : Nat → Bool
  axisMaskFromCycle : Nat → Nat

/-- The loop of ProcessSettings.cpp lines 390..399: some requested axis
below `_numberAxis` is not configured to allow single-axis homing. -/
def singleAxisViolation (env : HomingEnv) (axisMask : Nat) : Bool :=
  (List.range env.numberAxis).any
    (fun axis => axisMask.testBit axis && !env.allowSingleAxis axis)

/-- One homing request (ProcessSettings.cpp `home`, lines 383..420),
returning the error code and the list of `Machine::Homing::run_cycles`
invocations (the homing motions started).  Interlocks in source order:
control pins blocking unlock, the single-axis-homing restriction for
requests other than `AllCycles`, the configuration alarm, homing globally
disabled, and the safety door.  After `run_cycles` the code busy-waits,
pumping real-time events until the state leaves `Homing`, and returns
`Ok`; the wait itself is real-time behavior outside this model. -/
def home (env : HomingEnv) (axisMask : Nat) : Error × List Nat :=
  if env.pins_block_unlock then (Error.CheckControlPins, [])
  else if axisMask ≠ AllCycles ∧ singleAxisViolation env axisMask = true then
    (Error.SingleAxisHoming, [])
  else if env.stateIsConfigAlarm then (Error.ConfigurationInvalid, [])
  else if env.homingMask = 0 then (Error.SettingDisabled, [])
  else if env.safety_door_ajar then (Error.CheckDoor, [])
  else (Error.Ok, [axisMask])

/-- The cycle-list loop of `home_all` (ProcessSettings.cpp lines
445..452): run each named cycle to completion in left-to-right order,
stopping at, and returning, the first non-Ok result. -/
def run_cycle_list (env : HomingEnv) : List Char → Error × List Nat
  | [] => (Error.Ok, [])
  | c :: rest =>
      match home env (env.axisMaskFromCycle (digitVal c)) with
      | (Error.Ok, t) =>
          let r := run_cycle_list env rest
          (r.fst, t ++ r.snd)
      | (e, t) => (e, t)

/-- Modelled from the spec: `Axes::namesToMask` (external to src/)
interprets the value as a simultaneous axis-name list, mapping the letters
X Y Z A B C (case-insensitively) to axis bits 0..5; any other character
fails. -/
def axisIndexOf (c : Char) : Option Nat :=
  if c.toUpper = 'X' then some 0
  else if c.toUpper = 'Y' then some 1
  else if c.toUpper = 'Z' then some 2
  else if c.toUpper = 'A' then some 3
  else if c.toUpper = 'B' then some 4
  else if c.toUpper = 'C' then some 5
  else none

/-- Modelled from the spec: the axis mask named by an axis-letter list,
`none` when some letter is not an axis name. -/
def namesToMask : List Char → Option Nat
  | [] => some 0
  | c :: rest =>
      match axisIndexOf c, namesToMask rest with
      | some i, some m => some (2 ^ i ||| m)
      | _, _ => none

/-- The `$H` entry point (ProcessSettings.cpp `home_all`, lines 421..462).
With no value it requests the default all-cycles set.  A first pass
rejects any digit naming a homing cycle with no configured axes.  A value
containing a digit must be all digits (else InvalidValue) and runs the
named cycles sequentially in the order given; otherwise the value is an
axis-letter list homed simultaneously, rejected when a letter is
unrecognized. -/
def home_all (env : HomingEnv) (value : Option (List Char)) :
    Error × List Nat :=
  match value with
  | none => home env AllCycles
  | some v =>
      if v.any (fun c => c.isDigit && decide (env.axisMaskFromCycle (digitVal c) = 0)) then
        (Error.InvalidValue, [])
      else
        let ndigits := (v.filter Char.isDigit).length
        if ndigits ≠ 0 then
          if ndigits ≠ v.length then (Error.InvalidValue, [])
          else run_cycle_list env v
        else
          match namesToMask v with
          | none => (Error.InvalidValue, [])
          | some m => home env m

/-- A configured secondary UART as seen by `uartPassthrough`: its name and
its `_passthrough_baud` configuration item (zero when passthrough is not
enabled for it). -/
structure Uart where
  name : List Char
  passthrough_baud : Nat
  deriving DecidableEq, Repr

/-- The context of `uartPassthrough`: `config->_uarts[1..]` in index order
(`none` for an unconfigured slot), and the `uart_num()` values of the
consecutive non-null `config->_uart_channels` entries. -/
structure PTEnv where
  uarts : List (Option Uart)
  uartChannelNums : List Nat

/-- Channel-state changes made by the passthrough bridge, in order.  The
byte-relay loop between pause and release is timing-driven real-time
behavior, recorded as a single `relay` step with the selected uart index
and the inactivity timeout in milliseconds. -/
inductive PTEffect where
  | pauseOut
  | pauseChannel (n : Nat)
  | enterPassthrough (n : Nat)
  | relay (n : Nat) (timeout : Nat)
  | exitPassthrough (n : Nat)
  | resumeChannel (n : Nat)
  | resumeOut
  deriving DecidableEq, Repr

/-- Outcome of the value-token scan of `uartPassthrough` (lines 748..765):
the selected target name and timeout, or a malformed timeout token. -/
inductive PTParse where
  | ok (name : List Char) (timeout : Nat)
  | badTimeout
  deriving DecidableEq, Repr

/-- Modelled from the spec: `string_util::from_decimal` (external to
src/) parses a nonempty all-digit token as a decimal number. -/
def parseDecimal (l : List Char) : Option Nat :=
  if l.isEmpty then none
  else if l.all Char.isDigit then
    some (l.foldl (fun acc c => acc * 10 + digitVal c) 0)
  else none

/-- Modelled from the spec: the comma token split of the `$UP` value
(`string_util::split_prefix` loop); an empty value yields no tokens. -/
def splitOnComma (l : List Char) : List (List Char) :=
  if l.isEmpty then [] else List.splitOn ',' l

/-- The token scan of `uartPassthrough` (ProcessSettings.cpp lines
748..765): `auto` (case-insensitive) selects automatic target choice, a
nonempty token ending in `s`/`S` sets the timeout in seconds (malformed
numbers fail), and any other token names the target UART.  The starting
state is name `auto` and timeout 2000 ms. -/
def parseTokens : List (List Char) → List Char → Nat → PTParse
  | [], name, t => PTParse.ok name t
  | tok :: rest, name, t =>
      if eqIgnoreCase tok (lc "auto") then parseTokens rest (lc "auto") t
      else if !tok.isEmpty && tok.getLast?.map Char.toLower == some 's' then
        match parseDecimal tok.dropLast with
        | some n => parseTokens rest name (n * 1000)
        | none => PTParse.badTimeout
      else parseTokens rest tok t

/-- The parse of the whole `$UP` value: a null value keeps the defaults. -/
def ptParseValue (value : Option (List Char)) : PTParse :=
  match value with
  | none => PTParse.ok (lc "auto") 2000
  | some v => parseTokens (splitOnComma v) (lc "auto") 2000

/-- The `auto` scan of lines 769..776: the position of the first
configured UART with a nonzero `_passthrough_baud`. -/
def findAutoUart : List (Option Uart) → Option (Nat × Uart)
  | [] => none
  | none :: rest => (findAutoUart rest).map (fun p => (p.fst + 1, p.snd))
  | some u :: rest =>
      if u.passthrough_baud != 0 then some (0, u)
      else (findAutoUart rest).map (fun p => (p.fst + 1, p.snd))

/-- The named scan of lines 783..795: the position of the first configured
UART whose name equals the requested name exactly. -/
def findNamedUart (name : List Char) : List (Option Uart) → Option (Nat × Uart)
  | [] => none
  | none :: rest => (findNamedUart name rest).map (fun p => (p.fst + 1, p.snd))
  | some u :: rest =>
      if u.name == name then some (0, u)
      else (findNamedUart name rest).map (fun p => (p.fst + 1, p.snd))

/-- The `$UP` command (ProcessSettings.cpp `uartPassthrough`, lines
743..848), returning the error code and the channel-state changes made.
Selection failures return `InvalidValue` before any channel state is
touched.  On success the calling channel is paused, the wrapper channel
for the selected uart (when one exists) is paused, the port enters
passthrough, the relay loop runs until the inactivity timeout, and every
change is then reversed in opposite order. -/
def uartPassthrough (env : PTEnv) (value : Option (List Char)) :
    Error × List PTEffect :=
  match ptParseValue value with
  | PTParse.badTimeout => (Error.InvalidValue, [])
  | PTParse.ok name timeout =>
      let sel : Option (Nat × Uart) :=
        if name == lc "auto" then findAutoUart env.uarts
        else match findNamedUart name env.uarts with
          | some p => if p.snd.passthrough_baud == 0 then none else some p
          | none => none
      match sel with
      | none => (Error.InvalidValue, [])
      | some p =>
          let uartNum := p.fst + 1
          let chan := env.uartChannelNums.find? (fun n => n == uartNum)
          let pauses := match chan with
            | some n => [PTEffect.pauseChannel n]
            | none => []
          let resumes := match chan with
            | some n => [PTEffect.resumeChannel n]
            | none => []
          (Error.Ok,
            [PTEffect.pauseOut] ++ pauses ++
            [PTEffect.enterPassthrough uartNum,
             PTEffect.relay uartNum timeout,
             PTEffect.exitPassthrough uartNum] ++
            resumes ++ [PTEffect.resumeOut])

/-- C++ semantics of ProcessSettings.cpp line 136,
`if (!s->getType() == WEBSET)`: `!` binds tighter than `==`, so the test
compares the int-promoted bool `!getType()` (1 when the type code is 0,
else 0) against the numeric value of the `WEBSET` enumerator.  The
`type_t` enumerator values live in Settings.h, which is not part of the
given source. -/
def wifiRestoreCond (websetCode : Nat) (typeCode : Nat) : Bool :=
  (if typeCode = 0 then 1 else 0) == websetCode

/-- A concrete homing context for witnesses: three axes, homing enabled,
every axis allowing single-axis homing, cycle 1 homing axis 0 and cycle 2
homing axis 1; all other cycles have no axes. -/
def envHoming : HomingEnv :=
  { pins_block_unlock := false
    safety_door_ajar := false
    stateIsConfigAlarm := false
    homingMask := 7
    numberAxis := 3
    allowSingleAxis := fun _ => true
    axisMaskFromCycle := fun n => if n = 1 then 1 else if n = 2 then 2 else 0 }

/-- Like `envHoming` but only axis 0 allows single-axis homing, so cycle 1
homes successfully while cycle 2 fails its interlock. -/
def envHomingPartial : HomingEnv :=
  { envHoming with allowSingleAxis := fun a => decide (a = 0) }

/-- A concrete command for dispatch witnesses: canonical name `H`, legacy
name `ax`, guest-writable, asynchronous, always succeeding. -/
def cmdH : Cmd :=
  { name := lc "H", grblName := some (lc "ax"), perms := Permissions.WG,
    synchronous := false, action := fun _ _ => Error.Ok }

/-- A concrete setting for dispatch witnesses whose legacy name `ax`
collides with the command `cmdH`'s legacy name. -/
def sFoo : SettingE :=
  { name := lc "foo", grblName := some (lc "ax"), perms := Permissions.WA,
    stringValue := lc "bar", compatibleValue := lc "cv",
    setStringValue := fun _ => Error.Ok }

/-- A second concrete setting for dispatch witnesses, reachable through
its legacy name `7`. -/
def sPin : SettingE :=
  { name := lc "pin", grblName := some (lc "7"), perms := Permissions.WU,
    stringValue := lc "pv", compatibleValue := lc "pc",
    setStringValue := fun _ => Error.NumberRange }

/-- A concrete dispatch context for witnesses: one command, two flat
settings, a tree handling only the key `tree`, and a pattern matcher
matching the pattern `f*` against the name `foo`. -/
def envD : DispatchEnv :=
  { authEnabled := true
    commands := [cmdH]
    settings := [sFoo, sPin]
    tree := fun k _ => if k = lc "tree" then TreeResult.handled else TreeResult.notHandled
    validateOk := true
    regexMatch := fun key nm => decide (key = lc "f*" ∧ nm = lc "foo") }

/-- A concrete passthrough context for witnesses: one configured
secondary UART named `uart1` with passthrough disabled, one empty slot,
and a wrapper channel for uart 1. -/
def envPT : PTEnv :=
  { uarts := [some { name := lc "uart1", passthrough_baud := 0 }, none]
    uartChannelNums := [1] }

/-- Claim C2: for every (authentication level, entry permission,
read-or-write) combination the gate `auth_failed` returns exactly the
result of the spec's truth table (Admin always allowed; Guest allowed iff
the permission is WG; User always allowed to read, allowed to write iff
the permission is not WA), and the variant compiled when authentication
is disabled always passes. -/
theorem auth_failed_matches_table :
    (∀ (perms : Permissions) (value : Option (List Char)) (level : AuthenticationLevel),
      auth_failed perms value level = !authTableAllows level perms (!svEmpty value)) ∧
    (∀ (perms : Permissions) (value : Option (List Char)) (level : AuthenticationLevel),
      auth_failed_disabled perms value level = false) := by
  constructor
  · intro perms value level
    cases level <;> cases perms <;> cases h : svEmpty value <;>
      simp only [auth_failed, authTableAllows, auth_failed_disabled, h] <;> decide
  · intro _ _ _
    rfl

/-- Claim C9: the check-mode toggle returns `ConfigurationInvalid` in the
`ConfigAlarm` state and `IdleError` in any other state that is neither
`Idle` nor `CheckMode`; the configuration-alarm check precedes the
idle-only check, and neither error path installs a new state or raises
the abort flag. -/
theorem toggle_check_mode_guards :
    toggle_check_mode State.ConfigAlarm = (Error.ConfigurationInvalid, none, false) ∧
    (∀ s : State, s ≠ State.Idle → s ≠ State.CheckMode → s ≠ State.ConfigAlarm →
      toggle_check_mode s = (Error.IdleError, none, false)) := by
  refine ⟨rfl, ?_⟩
  intro s h1 h2 h3
  cases s <;> simp_all [toggle_check_mode]

/-- Witness for C9 at the Alarm state. -/
theorem toggle_check_mode_guards_witness :
    toggle_check_mode State.Alarm = (Error.IdleError, none, false) :=
  toggle_check_mode_guards.2 State.Alarm (by decide) (by decide) (by decide)

theorem uriDecode_cons (buf : List Char) (c : Char) (rest : List Char) :
    uriDecode buf (c :: rest) =
      (if c = '%' then
        match rest with
        | h1 :: h2 :: rest2 =>
            match hexVal h1, hexVal h2 with
            | some a, some b => uriDecode (buf ++ [Char.ofNat (a * 16 + b)]) rest2
            | _, _ => (buf, true)
        | _ => (buf, true)
      else uriDecode (buf ++ [c]) rest) := by
  cases rest with
  | nil => rfl
  | cons h1 r1 =>
    cases r1 with
    | nil => rfl
    | cons h2 r2 => rfl

theorem uriDecode_encodeChar (c : Char) (buf t : List Char) :
    uriDecode buf (encodeChar c ++ t) = uriDecode (buf ++ [c]) t := by
  by_cases h1 : c = '%'
  · subst h1; rfl
  · by_cases h2 : c = '!'
    · subst h2; rfl
    · by_cases h3 : c = '?'
      · subst h3; rfl
      · by_cases h4 : c = '~'
        · subst h4; rfl
        · have he : encodeChar c = [c] := by
            simp [encodeChar, h1, h2, h3, h4]
          rw [he]
          show uriDecode buf (c :: t) = uriDecode (buf ++ [c]) t
          rw [uriDecode_cons, if_neg h1]

/-- Per-call behavior of decode-after-encode: starting from buffer content
`buf`, decoding the encoding of `s` appends exactly `s` and reports no
error.  With an empty buffer this is the identity of the claim. -/
theorem uriDecode_uriEncode (s : List Char) :
    ∀ buf, uriDecode buf (uriEncodeGrblCharacters s) = (buf ++ s, false) := by
  induction s with
  | nil =>
      intro buf
      simp [uriEncodeGrblCharacters, uriDecode]
  | cons c rest ih =>
      intro buf
      rw [uriEncodeGrblCharacters, uriDecode_encodeChar, ih]
      simp

/-- Decoding stops exactly at a malformed escape: the result is the
characters decoded before it (appended to the entry buffer) and the error
is logged.  The decode function is total, so it cannot read past the end
of its input. -/
theorem uriDecode_malformed (p : List Char) (t : List Char)
    (hp : '%' ∉ p) (ht : malformedTail t) :
    ∀ buf, uriDecode buf (p ++ '%' :: t) = (buf ++ p, true) := by
  induction p with
  | nil =>
      intro buf
      cases t with
      | nil => simp [uriDecode_cons]
      | cons h1 rest =>
        cases rest with
        | nil => simp [uriDecode_cons]
        | cons h2 rest2 =>
          simp only [malformedTail] at ht
          rcases ht with h | h
          · simp [uriDecode_cons, h]
          · cases hh1 : hexVal h1 with
            | none => simp [uriDecode_cons, hh1]
            | some a => simp [uriDecode_cons, hh1, h]
  | cons c p2 ih =>
      intro buf
      have hc : c ≠ '%' := by
        intro hcc
        exact hp (by simp [hcc])
      have hp2 : '%' ∉ p2 := by
        intro hm
        exact hp (List.mem_cons_of_mem _ hm)
      have step : uriDecode buf ((c :: p2) ++ '%' :: t) =
          uriDecode (buf ++ [c]) (p2 ++ '%' :: t) := by
        rw [List.cons_append, uriDecode_cons, if_neg hc]
      rw [step, ih hp2]
      simp

/-- Claim C6 (code bug): per call the encode-decode round trip is the
identity, but `uriDecode` accumulates into a function-static buffer that
is never cleared, so a second call returns the first call's output with
the new result appended: after decoding `a`, decoding the encoding of `b`
yields `ab`, not `b`. -/
theorem uriDecode_static_buffer_bug :
    uriDecode [] (uriEncodeGrblCharacters (lc "b")) = (lc "b", false) ∧
    uriDecode (uriDecode [] (lc "a")).fst (uriEncodeGrblCharacters (lc "b")) =
      (lc "ab", false) ∧
    lc "ab" ≠ lc "b" := by
  refine ⟨rfl, rfl, by decide⟩

/-- The Wifi-restore condition of ProcessSettings.cpp line 136 resets
exactly the settings whose type is not `WEBSET` precisely when the
`WEBSET` enumerator is numerically zero; the claim of C8 is equivalent to
that unknowable fact about the missing Settings.h. -/
theorem wifiRestoreCond_claim_iff (w : Nat) :
    (∀ t : Nat, wifiRestoreCond w t = decide (t ≠ w)) ↔ w = 0 := by
  constructor
  · intro h
    by_contra hw
    rcases eq_or_ne w 1 with h1 | h1
    · have h2 := h 2
      rw [h1] at h2
      exact absurd h2 (by decide)
    · have h2 := h 1
      have e1 : wifiRestoreCond w 1 = false := by
        simp only [wifiRestoreCond]
        norm_num
        omega
      have e2 : decide ((1 : Nat) ≠ w) = true := by
        simp only [decide_eq_true_eq]
        omega
      rw [e1, e2] at h2
      exact Bool.noConfusion h2
  · intro h t
    subst h
    by_cases ht : t = 0 <;> simp [wifiRestoreCond, ht]

/-- When the `WEBSET` enumerator is at least 2 (as in an enumeration
where it is the third member), the Wifi-restore branch resets no setting
at all. -/
theorem wifiRestoreCond_noop_of_two_le (w : Nat) (hw : 2 ≤ w) :
    ∀ t, wifiRestoreCond w t = false := by
  intro t
  by_cases ht : t = 0 <;> simp [wifiRestoreCond, ht] <;> omega

/-- Claim C5: every pre-run interlock of `home` is checked before
`run_cycles` is invoked and a failing interlock returns its named error
with no homing motion started: control pins blocking unlock give
`CheckControlPins`; a non-all-cycles request containing an axis that does
not allow single-axis homing gives `SingleAxisHoming`; a configuration
alarm gives `ConfigurationInvalid`; an empty homing mask gives
`SettingDisabled`; an ajar safety door gives `CheckDoor`; and when every
interlock passes the motion system is invoked exactly once with the
requested mask. -/
theorem home_interlocks (env : HomingEnv) (m : Nat) :
    ((home env m).fst ≠ Error.Ok → (home env m).snd = []) ∧
    (env.pins_block_unlock = true → home env m = (Error.CheckControlPins, [])) ∧
    (env.pins_block_unlock = false → m ≠ AllCycles →
      (∃ axis, axis < env.numberAxis ∧ m.testBit axis = true ∧
        env.allowSingleAxis axis = false) →
      home env m = (Error.SingleAxisHoming, [])) ∧
    (env.pins_block_unlock = false →
      (m = AllCycles ∨ singleAxisViolation env m = false) →
      env.stateIsConfigAlarm = true →
      home env m = (Error.ConfigurationInvalid, [])) ∧
    (env.pins_block_unlock = false →
      (m = AllCycles ∨ singleAxisViolation env m = false) →
      env.stateIsConfigAlarm = false → env.homingMask = 0 →
      home env m = (Error.SettingDisabled, [])) ∧
    (env.pins_block_unlock = false →
      (m = AllCycles ∨ singleAxisViolation env m = false) →
      env.stateIsConfigAlarm = false → env.homingMask ≠ 0 →
      env.safety_door_ajar = true →
      home env m = (Error.CheckDoor, [])) ∧
    (env.pins_block_unlock = false →
      (m = AllCycles ∨ singleAxisViolation env m = false) →
      env.stateIsConfigAlarm = false → env.homingMask ≠ 0 →
      env.safety_door_ajar = false →
      home env m = (Error.Ok, [m])) := by
  have hnosa : ∀ (h : m = AllCycles ∨ singleAxisViolation env m = false),
      ¬(m ≠ AllCycles ∧ singleAxisViolation env m = true) := by
    intro h hcontra
    rcases h with h | h
    · exact hcontra.1 h
    · rw [h] at hcontra
      exact Bool.noConfusion hcontra.2
  refine ⟨?_, ?_, ?_, ?_, ?_, ?_, ?_⟩
  · intro hne
    unfold home at hne ⊢
    split_ifs at hne ⊢ <;> simp_all
  · intro h
    simp [home, h]
  · intro h1 h2 hex
    have hv : singleAxisViolation env m = true := by
      rcases hex with ⟨a, ha, hb, hc⟩
      simp only [singleAxisViolation, List.any_eq_true]
      exact ⟨a, List.mem_range.mpr ha, by simp [hb, hc]⟩
    simp [home, h1, h2, hv]
  · intro h1 h2 h3
    simp [home, h1, hnosa h2, h3]
  · intro h1 h2 h3 h4
    simp [home, h1, hnosa h2, h3, h4]
  · intro h1 h2 h3 h4 h5
    simp [home, h1, hnosa h2, h3, h4, h5]
  · intro h1 h2 h3 h4 h5
    simp [home, h1, hnosa h2, h3, h4, h5]

/-- Witness for C5: each interlock fires at a concrete context, and the
success case starts exactly one motion. -/
theorem home_interlocks_witness :
    home { envHoming with pins_block_unlock := true } 1 = (Error.CheckControlPins, []) ∧
    home envHomingPartial 2 = (Error.SingleAxisHoming, []) ∧
    home { envHoming with stateIsConfigAlarm := true } 1 = (Error.ConfigurationInvalid, []) ∧
    home { envHoming with homingMask := 0 } 1 = (Error.SettingDisabled, []) ∧
    home { envHoming with safety_door_ajar := true } 1 = (Error.CheckDoor, []) ∧
    home envHoming 1 = (Error.Ok, [1]) ∧
    (home envHomingPartial 2).snd = [] := by
  refine ⟨?_, ?_, ?_, ?_, ?_, ?_, ?_⟩
  · exact (home_interlocks _ 1).2.1 rfl
  · exact (home_interlocks envHomingPartial 2).2.2.1 rfl (by decide)
      ⟨1, by decide, by decide, by decide⟩
  · exact (home_interlocks _ 1).2.2.2.1 rfl (Or.inr (by decide)) rfl
  · exact (home_interlocks _ 1).2.2.2.2.1 rfl (Or.inr (by decide)) rfl rfl
  · exact (home_interlocks _ 1).2.2.2.2.2.1 rfl (Or.inr (by decide)) rfl (by decide) rfl
  · exact (home_interlocks envHoming 1).2.2.2.2.2.2 rfl (Or.inr (by decide)) rfl (by decide) rfl
  · exact (home_interlocks envHomingPartial 2).1 (by decide)

theorem run_cycle_list_cons (env : HomingEnv) (c : Char) (rest : List Char) :
    run_cycle_list env (c :: rest) =
      (if (home env (env.axisMaskFromCycle (digitVal c))).fst = Error.Ok then
        ((run_cycle_list env rest).fst,
          (home env (env.axisMaskFromCycle (digitVal c))).snd ++
            (run_cycle_list env rest).snd)
      else home env (env.axisMaskFromCycle (digitVal c))) := by
  rcases h : home env (env.axisMaskFromCycle (digitVal c)) with ⟨e, t⟩
  cases e <;> simp [run_cycle_list, h]

theorem run_cycle_list_singleton (env : HomingEnv) (c : Char) :
    run_cycle_list env [c] = home env (env.axisMaskFromCycle (digitVal c)) := by
  rcases h : home env (env.axisMaskFromCycle (digitVal c)) with ⟨e, t⟩
  cases e <;> simp [run_cycle_list, h]

/-- A failing cycle aborts the remaining sequence: when every cycle in
`v1` homes successfully and cycle `c` fails, the cycles after `c` are
never consulted and the whole run returns the failing cycle's error. -/
theorem run_cycle_list_abort (env : HomingEnv) (c : Char) (v2 : List Char) :
    ∀ v1 : List Char,
      (∀ c2 ∈ v1, (home env (env.axisMaskFromCycle (digitVal c2))).fst = Error.Ok) →
      (home env (env.axisMaskFromCycle (digitVal c))).fst ≠ Error.Ok →
      run_cycle_list env (v1 ++ c :: v2) = run_cycle_list env (v1 ++ [c]) ∧
      (run_cycle_list env (v1 ++ c :: v2)).fst =
        (home env (env.axisMaskFromCycle (digitVal c))).fst := by
  intro v1
  induction v1 with
  | nil =>
      intro _ herr
      simp only [List.nil_append]
      have h1 : run_cycle_list env (c :: v2) =
          home env (env.axisMaskFromCycle (digitVal c)) := by
        rw [run_cycle_list_cons, if_neg herr]
      rw [h1, run_cycle_list_singleton]
      exact ⟨rfl, rfl⟩
  | cons c2 v1t ih =>
      intro hok herr
      have hok2 : (home env (env.axisMaskFromCycle (digitVal c2))).fst = Error.Ok :=
        hok c2 (List.mem_cons_self c2 v1t)
      have iht := ih (fun x hx => hok x (List.mem_cons_of_mem _ hx)) herr
      have e1 : run_cycle_list env ((c2 :: v1t) ++ c :: v2) =
          ((run_cycle_list env (v1t ++ c :: v2)).fst,
            (home env (env.axisMaskFromCycle (digitVal c2))).snd ++
              (run_cycle_list env (v1t ++ c :: v2)).snd) := by
        rw [List.cons_append, run_cycle_list_cons, if_pos hok2]
      have e2 : run_cycle_list env ((c2 :: v1t) ++ [c]) =
          ((run_cycle_list env (v1t ++ [c])).fst,
            (home env (env.axisMaskFromCycle (digitVal c2))).snd ++
              (run_cycle_list env (v1t ++ [c])).snd) := by
        rw [List.cons_append, run_cycle_list_cons, if_pos hok2]
      refine ⟨?_, ?_⟩
      · rw [e1, e2, iht.1]
      · rw [e1]
        exact iht.2

/-- Claim C4: the home-all value parsing.  The value `21` runs homing
cycle 2 to completion and then cycle 1, in the order given, aborting on
the first error; `XZ` is a single simultaneous request for axes X and Z;
`2X` is InvalidValue; an absent value requests the default all-cycles
set; a digit naming a cycle with no configured axes is InvalidValue
before any cycle runs; an all-digit value with all cycles configured runs
the cycle list in the order given; and a failing cycle aborts the rest
and returns its error. -/
theorem home_all_value_parsing (env : HomingEnv) :
    (env.axisMaskFromCycle 2 ≠ 0 → env.axisMaskFromCycle 1 ≠ 0 →
      home_all env (some ['2', '1']) =
        (if (home env (env.axisMaskFromCycle 2)).fst = Error.Ok then
          ((home env (env.axisMaskFromCycle 1)).fst,
            (home env (env.axisMaskFromCycle 2)).snd ++
              (home env (env.axisMaskFromCycle 1)).snd)
        else home env (env.axisMaskFromCycle 2))) ∧
    (home_all env (some ['X', 'Z']) = home env 5) ∧
    (home_all env (some ['2', 'X']) = (Error.InvalidValue, [])) ∧
    (home_all env none = home env AllCycles) ∧
    (∀ v : List Char, (∀ c ∈ v, c.isDigit = true) →
      (∃ c ∈ v, env.axisMaskFromCycle (digitVal c) = 0) →
      home_all env (some v) = (Error.InvalidValue, [])) ∧
    (∀ v : List Char, v ≠ [] → (∀ c ∈ v, c.isDigit = true) →
      (∀ c ∈ v, env.axisMaskFromCycle (digitVal c) ≠ 0) →
      home_all env (some v) = run_cycle_list env v) ∧
    (∀ v1 v2 : List Char, ∀ c : Char,
      (∀ c2 ∈ v1, (home env (env.axisMaskFromCycle (digitVal c2))).fst = Error.Ok) →
      (home env (env.axisMaskFromCycle (digitVal c))).fst ≠ Error.Ok →
      run_cycle_list env (v1 ++ c :: v2) = run_cycle_list env (v1 ++ [c]) ∧
      (run_cycle_list env (v1 ++ c :: v2)).fst =
        (home env (env.axisMaskFromCycle (digitVal c))).fst) := by
  refine ⟨?_, ?_, ?_, rfl, ?_, ?_, ?_⟩
  · intro h2 h1
    have hany : (['2', '1'].any fun c =>
        c.isDigit && decide (env.axisMaskFromCycle (digitVal c) = 0)) = false := by
      simp [show digitVal '2' = 2 from rfl, show digitVal '1' = 1 from rfl, h2, h1]
    have hrun : home_all env (some ['2', '1']) = run_cycle_list env ['2', '1'] := by
      simp +decide [home_all, hany]
    rw [hrun, run_cycle_list_cons, run_cycle_list_singleton,
      show digitVal '2' = 2 from rfl, show digitVal '1' = 1 from rfl]
  · rfl
  · by_cases hm : env.axisMaskFromCycle (digitVal '2') = 0
    · simp [home_all, hm]
    · simp [home_all, hm]
  · intro v hdig hex
    rcases hex with ⟨c, hcv, hc0⟩
    have hany : (v.any fun c =>
        c.isDigit && decide (env.axisMaskFromCycle (digitVal c) = 0)) = true :=
      List.any_eq_true.mpr ⟨c, hcv, by simp [hdig c hcv, hc0]⟩
    simp [home_all, hany]
  · intro v hne hdig hmask
    have hany : (v.any fun c =>
        c.isDigit && decide (env.axisMaskFromCycle (digitVal c) = 0)) = false := by
      rw [List.any_eq_false]
      intro c hcv
      simp [hdig c hcv, hmask c hcv]
    have hfil : v.filter Char.isDigit = v :=
      List.filter_eq_self.mpr (fun c hcv => by simp [hdig c hcv])
    have hlen : v.length ≠ 0 := by
      intro h
      exact hne (List.length_eq_zero.mp h)
    simp [home_all, hany, hfil, hlen]
  · intro v1 v2 c hok herr
    exact run_cycle_list_abort env c v2 v1 hok herr

/-- Witness for C4 at a concrete homing context: `21` homes axis masks 2
then 1 in that order, `XZ` is the single request for mask 5, `2X` and the
unconfigured cycle `3` are InvalidValue, and a failing cycle 2 stops a
`121` list after the failure. -/
theorem home_all_value_parsing_witness :
    home_all envHoming (some ['2', '1']) = (Error.Ok, [2, 1]) ∧
    home_all envHoming (some ['X', 'Z']) = home envHoming 5 ∧
    home_all envHoming (some ['2', 'X']) = (Error.InvalidValue, []) ∧
    home_all envHoming none = home envHoming AllCycles ∧
    home_all envHoming (some ['3']) = (Error.InvalidValue, []) ∧
    home_all envHoming (some ['2', '1']) = run_cycle_list envHoming ['2', '1'] ∧
    run_cycle_list envHomingPartial (['1'] ++ '2' :: ['1']) =
      run_cycle_list envHomingPartial (['1'] ++ ['2']) := by
  refine ⟨?_, ?_, ?_, ?_, ?_, ?_, ?_⟩
  · have h := (home_all_value_parsing envHoming).1 (by decide) (by decide)
    rw [h]
    decide
  · exact (home_all_value_parsing envHoming).2.1
  · exact (home_all_value_parsing envHoming).2.2.1
  · exact (home_all_value_parsing envHoming).2.2.2.1
  · exact (home_all_value_parsing envHoming).2.2.2.2.1 ['3'] (by decide)
      ⟨'3', by decide, by decide⟩
  · exact (home_all_value_parsing envHoming).2.2.2.2.2.1 ['2', '1'] (by decide)
      (by decide) (by decide)
  · exact ((home_all_value_parsing envHomingPartial).2.2.2.2.2.2 ['1'] ['1'] '2'
      (by decide) (by decide)).1

theorem findAutoUart_eq_none (l : List (Option Uart))
    (h : ∀ u : Uart, some u ∈ l → u.passthrough_baud = 0) :
    findAutoUart l = none := by
  induction l with
  | nil => rfl
  | cons hd tl ih =>
      cases hd with
      | none =>
          have := ih (fun u hu => h u (List.mem_cons_of_mem _ hu))
          simp [findAutoUart, this]
      | some u =>
          have hu := h u (List.mem_cons_self _ _)
          have := ih (fun u2 hu2 => h u2 (List.mem_cons_of_mem _ hu2))
          simp [findAutoUart, hu, this]

theorem findNamedUart_eq_none (name : List Char) (l : List (Option Uart))
    (h : ∀ u : Uart, some u ∈ l → u.name ≠ name) :
    findNamedUart name l = none := by
  induction l with
  | nil => rfl
  | cons hd tl ih =>
      cases hd with
      | none =>
          have := ih (fun u hu => h u (List.mem_cons_of_mem _ hu))
          simp [findNamedUart, this]
      | some u =>
          have hu := h u (List.mem_cons_self _ _)
          have := ih (fun u2 hu2 => h u2 (List.mem_cons_of_mem _ hu2))
          simp [findNamedUart, hu, this]

/-- Claim C7: the passthrough selection failures return InvalidValue
before any channel state is changed (the effect list is empty): `auto`
when no configured secondary UART has a nonzero passthrough baud, an
explicit name matching no UART, or an explicit name matching a UART
without passthrough enabled. -/
theorem uartPassthrough_failures (env : PTEnv) (value : Option (List Char))
    (name : List Char) (timeout : Nat)
    (hparse : ptParseValue value = PTParse.ok name timeout) :
    (name = lc "auto" →
      (∀ u : Uart, some u ∈ env.uarts → u.passthrough_baud = 0) →
      uartPassthrough env value = (Error.InvalidValue, [])) ∧
    (name ≠ lc "auto" →
      (∀ u : Uart, some u ∈ env.uarts → u.name ≠ name) →
      uartPassthrough env value = (Error.InvalidValue, [])) ∧
    (∀ (i : Nat) (u : Uart), name ≠ lc "auto" →
      findNamedUart name env.uarts = some (i, u) → u.passthrough_baud = 0 →
      uartPassthrough env value = (Error.InvalidValue, [])) := by
  refine ⟨?_, ?_, ?_⟩
  · intro hauto hbauds
    subst hauto
    simp [uartPassthrough, hparse, findAutoUart_eq_none env.uarts hbauds]
  · intro hauto hnames
    have hbeq : (name == lc "auto") = false := by
      simp [hauto]
    simp [uartPassthrough, hparse, hbeq, findNamedUart_eq_none name env.uarts hnames]
  · intro i u hauto hfind hbaud
    have hbeq : (name == lc "auto") = false := by
      simp [hauto]
    simp [uartPassthrough, hparse, hbeq, hfind, hbaud]

/-- Witness for C7: in a context whose only secondary UART is `uart1`
with passthrough disabled, `auto`, the unknown name `uart9`, and the
disabled name `uart1` all fail with InvalidValue and no effects. -/
theorem uartPassthrough_failures_witness :
    uartPassthrough envPT (some (lc "auto")) = (Error.InvalidValue, []) ∧
    uartPassthrough envPT (some (lc "uart9")) = (Error.InvalidValue, []) ∧
    uartPassthrough envPT (some (lc "uart1")) = (Error.InvalidValue, []) := by
  refine ⟨?_, ?_, ?_⟩
  · exact (uartPassthrough_failures envPT (some (lc "auto")) (lc "auto") 2000
      (by decide)).1 rfl
      (by intro u hu; simp [envPT] at hu; subst hu; rfl)
  · exact (uartPassthrough_failures envPT (some (lc "uart9")) (lc "uart9") 2000
      (by decide)).2.1 (by decide)
      (by intro u hu; simp [envPT] at hu; subst hu; decide)
  · exact (uartPassthrough_failures envPT (some (lc "uart1")) (lc "uart1") 2000
      (by decide)).2.2 0 { name := lc "uart1", passthrough_baud := 0 }
      (by decide) (by decide) rfl

theorem find?_eq_none_of_any_eq_false {α : Type} (l : List α) (p : α → Bool)
    (h : l.any p = false) : l.find? p = none := by
  rw [List.find?_eq_none]
  intro x hx
  rw [List.any_eq_false] at h
  exact h x hx

theorem find?_exists_of_any_eq_true {α : Type} (l : List α) (p : α → Bool)
    (h : l.any p = true) : ∃ x, l.find? p = some x :=
  Option.isSome_iff_exists.mp (List.find?_isSome.mpr (List.any_eq_true.mp h))

/-- Claim C1: resolution priority of `do_command_or_setting`, first match
winning: a matching Command resolves independently of the
settings/tree/pattern stages; a tree-handled key resolves independently
of the flat settings; then the first setting matching by canonical name;
then the first setting matching by legacy Grbl name; when nothing matches
exactly and a value is supplied the result is InvalidStatement with no
pattern matching; when nothing matches exactly and no value is supplied,
the pattern fallback over canonical names returns Ok when at least one
setting matches and InvalidStatement when none does. -/
theorem do_command_or_setting_resolution (env : DispatchEnv) (key : List Char)
    (value : Option (List Char)) (auth_level : AuthenticationLevel) :
    (cmdMatches env key = true →
      do_command_or_setting env key value auth_level =
        do_command_or_setting
          { env with
            settings := []
            tree := fun _ _ => TreeResult.notHandled
            regexMatch := fun _ _ => false } key value auth_level) ∧
    (cmdMatches env key = false → env.tree key value ≠ TreeResult.notHandled →
      do_command_or_setting env key value auth_level =
        do_command_or_setting { env with settings := [] } key value auth_level) ∧
    (cmdMatches env key = false → env.tree key value = TreeResult.notHandled →
      flatNameMatches env key = true →
      ∃ s, env.settings.find? (settingNameMatch key) = some s ∧
        do_command_or_setting env key value auth_level =
          (if svEmpty value then (Error.Ok, [Effect.showSetting s.name s.stringValue])
           else (s.setStringValue ((uriDecode [] (value.getD [])).fst),
             [Effect.setSetting s.name ((uriDecode [] (value.getD [])).fst)]))) ∧
    (cmdMatches env key = false → env.tree key value = TreeResult.notHandled →
      flatNameMatches env key = false → flatGrblMatches env key = true →
      ∃ s, env.settings.find? (settingGrblMatch key) = some s ∧
        do_command_or_setting env key value auth_level =
          (if svEmpty value then
            (Error.Ok, [Effect.showSetting (s.grblName.getD []) s.compatibleValue])
           else (s.setStringValue ((uriDecode [] (value.getD [])).fst),
             [Effect.setSetting s.name ((uriDecode [] (value.getD [])).fst)]))) ∧
    (cmdMatches env key = false → env.tree key value = TreeResult.notHandled →
      flatNameMatches env key = false → flatGrblMatches env key = false →
      svEmpty value = false →
      do_command_or_setting env key value auth_level = (Error.InvalidStatement, [])) ∧
    (cmdMatches env key = false → env.tree key value = TreeResult.notHandled →
      flatNameMatches env key = false → flatGrblMatches env key = false →
      svEmpty value = true →
      ((patternMatches env key = true →
        (do_command_or_setting env key value auth_level).fst = Error.Ok) ∧
       (patternMatches env key = false →
        do_command_or_setting env key value auth_level =
          (Error.InvalidStatement, [])))) := by
  refine ⟨?_, ?_, ?_, ?_, ?_, ?_⟩
  · intro hcmd
    rcases find?_exists_of_any_eq_true env.commands (cmdKeyMatch key) hcmd with ⟨cp, hcp⟩
    have hcp2 : ({ env with
        settings := []
        tree := fun _ _ => TreeResult.notHandled
        regexMatch := fun _ _ => false } : DispatchEnv).commands.find?
          (cmdKeyMatch key) = some cp := hcp
    simp only [do_command_or_setting, hcp, hcp2]
  · intro hcmd htree
    have hnone : env.commands.find? (cmdKeyMatch key) = none :=
      find?_eq_none_of_any_eq_false env.commands (cmdKeyMatch key) hcmd
    have hnone2 : ({ env with settings := [] } : DispatchEnv).commands.find?
        (cmdKeyMatch key) = none := hnone
    simp only [do_command_or_setting, hnone, hnone2]
    cases ht : env.tree key value with
    | notHandled => exact absurd ht htree
    | handled => rfl
    | parseError => rfl
  · intro hcmd htree hflat
    have hnone : env.commands.find? (cmdKeyMatch key) = none :=
      find?_eq_none_of_any_eq_false env.commands (cmdKeyMatch key) hcmd
    rcases find?_exists_of_any_eq_true env.settings (settingNameMatch key) hflat with ⟨s, hs⟩
    refine ⟨s, hs, ?_⟩
    simp only [do_command_or_setting, hnone, htree, hs]
  · intro hcmd htree hflat hgrbl
    have hnone : env.commands.find? (cmdKeyMatch key) = none :=
      find?_eq_none_of_any_eq_false env.commands (cmdKeyMatch key) hcmd
    have hfn : env.settings.find? (settingNameMatch key) = none :=
      find?_eq_none_of_any_eq_false env.settings (settingNameMatch key) hflat
    rcases find?_exists_of_any_eq_true env.settings (settingGrblMatch key) hgrbl with ⟨s, hs⟩
    refine ⟨s, hs, ?_⟩
    simp only [do_command_or_setting, hnone, htree, hfn, hs]
  · intro hcmd htree hflat hgrbl hsv
    have hnone : env.commands.find? (cmdKeyMatch key) = none :=
      find?_eq_none_of_any_eq_false env.commands (cmdKeyMatch key) hcmd
    have hfn : env.settings.find? (settingNameMatch key) = none :=
      find?_eq_none_of_any_eq_false env.settings (settingNameMatch key) hflat
    have hfg : env.settings.find? (settingGrblMatch key) = none :=
      find?_eq_none_of_any_eq_false env.settings (settingGrblMatch key) hgrbl
    simp [do_command_or_setting, hnone, htree, hfn, hfg, hsv]
  · intro hcmd htree hflat hgrbl hsv
    have hnone : env.commands.find? (cmdKeyMatch key) = none :=
      find?_eq_none_of_any_eq_false env.commands (cmdKeyMatch key) hcmd
    have hfn : env.settings.find? (settingNameMatch key) = none :=
      find?_eq_none_of_any_eq_false env.settings (settingNameMatch key) hflat
    have hfg : env.settings.find? (settingGrblMatch key) = none :=
      find?_eq_none_of_any_eq_false env.settings (settingGrblMatch key) hgrbl
    have hred : do_command_or_setting env key value auth_level =
        (if (env.settings.filter fun s => env.regexMatch key s.name).isEmpty then
          (Error.InvalidStatement, [])
        else
          (Error.Ok, (env.settings.filter fun s => env.regexMatch key s.name).map
            (fun s => Effect.showSetting s.name s.stringValue))) := by
      simp [do_command_or_setting, hnone, htree, hfn, hfg, hsv]
    constructor
    · intro hpat
      have hne : (env.settings.filter fun s => env.regexMatch key s.name) ≠ [] := by
        rcases List.any_eq_true.mp hpat with ⟨s, hsmem, hsp⟩
        intro hnil
        rw [List.filter_eq_nil_iff] at hnil
        exact absurd hsp (by simpa using hnil s hsmem)
      rw [hred, if_neg (by simpa [List.isEmpty_iff] using hne)]
    · intro hpat
      have hnil : (env.settings.filter fun s => env.regexMatch key s.name) = [] := by
        rw [List.filter_eq_nil_iff]
        intro s hsmem
        simp only [patternMatches] at hpat
        rw [List.any_eq_false] at hpat
        simpa using hpat s hsmem
      rw [hred, if_pos (by simp [hnil])]

/-- Witness for C1 at a concrete context: the key `ax` (both a command's
legacy name and a setting's legacy name) runs the command; `tree` is
consumed by the configuration tree; `foo` displays the flat setting;
`7` displays the legacy form of the second setting; an unknown key with a
value is InvalidStatement; the pattern `f*` with no value displays the
matching setting, and an unknown key without a value is
InvalidStatement. -/
theorem do_command_or_setting_resolution_witness :
    do_command_or_setting envD (lc "ax") (some (lc "1")) AuthenticationLevel.LEVEL_ADMIN =
      (Error.Ok, [Effect.cmdAction (lc "H") (some (lc "1"))]) ∧
    do_command_or_setting envD (lc "tree") (some (lc "1")) AuthenticationLevel.LEVEL_ADMIN =
      (Error.Ok, [Effect.treeSet (lc "tree") (some (lc "1"))]) ∧
    do_command_or_setting envD (lc "foo") none AuthenticationLevel.LEVEL_ADMIN =
      (Error.Ok, [Effect.showSetting (lc "foo") (lc "bar")]) ∧
    do_command_or_setting envD (lc "7") none AuthenticationLevel.LEVEL_ADMIN =
      (Error.Ok, [Effect.showSetting (lc "7") (lc "pc")]) ∧
    do_command_or_setting envD (lc "zzz") (some (lc "v")) AuthenticationLevel.LEVEL_ADMIN =
      (Error.InvalidStatement, []) ∧
    (do_command_or_setting envD (lc "f*") none AuthenticationLevel.LEVEL_ADMIN).fst =
      Error.Ok ∧
    do_command_or_setting envD (lc "zzz") none AuthenticationLevel.LEVEL_ADMIN =
      (Error.InvalidStatement, []) := by
  refine ⟨?_, ?_, ?_, ?_, ?_, ?_, ?_⟩
  · have h := (do_command_or_setting_resolution envD (lc "ax") (some (lc "1"))
      AuthenticationLevel.LEVEL_ADMIN).1 (by decide)
    rw [h]
    decide
  · have h := (do_command_or_setting_resolution envD (lc "tree") (some (lc "1"))
      AuthenticationLevel.LEVEL_ADMIN).2.1 (by decide) (by decide)
    rw [h]
    decide
  · have h := (do_command_or_setting_resolution envD (lc "foo") none
      AuthenticationLevel.LEVEL_ADMIN).2.2.1 (by decide) (by decide) (by decide)
    rcases h with ⟨s, hs, heq⟩
    have hs2 : s = sFoo :=
      Option.some.inj ((rfl :
        envD.settings.find? (settingNameMatch (lc "foo")) = some sFoo).symm.trans hs).symm
    rw [heq, hs2]
    decide
  · have h := (do_command_or_setting_resolution envD (lc "7") none
      AuthenticationLevel.LEVEL_ADMIN).2.2.2.1 (by decide) (by decide) (by decide) (by decide)
    rcases h with ⟨s, hs, heq⟩
    have hs2 : s = sPin :=
      Option.some.inj ((rfl :
        envD.settings.find? (settingGrblMatch (lc "7")) = some sPin).symm.trans hs).symm
    rw [heq, hs2]
    decide
  · exact (do_command_or_setting_resolution envD (lc "zzz") (some (lc "v"))
      AuthenticationLevel.LEVEL_ADMIN).2.2.2.2.1 (by decide) (by decide) (by decide)
      (by decide) (by decide)
  · exact ((do_command_or_setting_resolution envD (lc "f*") none
      AuthenticationLevel.LEVEL_ADMIN).2.2.2.2.2 (by decide) (by decide) (by decide)
      (by decide) (by decide)).1 (by decide)
  · exact ((do_command_or_setting_resolution envD (lc "zzz") none
      AuthenticationLevel.LEVEL_ADMIN).2.2.2.2.2 (by decide) (by decide) (by decide)
      (by decide) (by decide)).2 (by decide)

/-- Claim C10: for keys that resolve through the flat setting lookup
(canonical or legacy Grbl name), no authentication check is performed:
the dispatch result and effects are identical for all caller levels, and
`AuthenticationFailed` is never produced on these paths (assuming, as in
the source, that `setStringValue` itself never reports it). -/
theorem flat_setting_auth_independent (env : DispatchEnv) (key : List Char)
    (value : Option (List Char)) (a1 a2 : AuthenticationLevel)
    (hcmd : cmdMatches env key = false)
    (htree : env.tree key value = TreeResult.notHandled)
    (hflat : flatNameMatches env key = true ∨ flatGrblMatches env key = true)
    (hset : ∀ s ∈ env.settings, ∀ v : List Char,
      s.setStringValue v ≠ Error.AuthenticationFailed) :
    do_command_or_setting env key value a1 = do_command_or_setting env key value a2 ∧
    (do_command_or_setting env key value a1).fst ≠ Error.AuthenticationFailed := by
  have hnone : env.commands.find? (cmdKeyMatch key) = none :=
    find?_eq_none_of_any_eq_false env.commands (cmdKeyMatch key) hcmd
  cases hf : env.settings.find? (settingNameMatch key) with
  | some s =>
      have hsmem : s ∈ env.settings := List.mem_of_find?_eq_some hf
      constructor
      · simp only [do_command_or_setting, hnone, htree, hf]
      · simp only [do_command_or_setting, hnone, htree, hf]
        by_cases hv : svEmpty value = true
        · simp [hv]
        · simp only [Bool.not_eq_true] at hv
          simp [hv]
          exact hset s hsmem _
  | none =>
      cases hg : env.settings.find? (settingGrblMatch key) with
      | some s =>
          have hsmem : s ∈ env.settings := List.mem_of_find?_eq_some hg
          constructor
          · simp only [do_command_or_setting, hnone, htree, hf, hg]
          · simp only [do_command_or_setting, hnone, htree, hf, hg]
            by_cases hv : svEmpty value = true
            · simp [hv]
            · simp only [Bool.not_eq_true] at hv
              simp [hv]
              exact hset s hsmem _
      | none =>
          exfalso
          rcases hflat with hflat | hflat
          · rcases find?_exists_of_any_eq_true env.settings (settingNameMatch key) hflat
              with ⟨s, hs⟩
            rw [hf] at hs
            exact Option.noConfusion hs
          · rcases find?_exists_of_any_eq_true env.settings (settingGrblMatch key) hflat
              with ⟨s, hs⟩
            rw [hg] at hs
            exact Option.noConfusion hs

/-- Witness for C10: a Guest and an Admin writing the flat setting `foo`
get the identical result and effects, and no AuthenticationFailed. -/
theorem flat_setting_auth_independent_witness :
    (do_command_or_setting envD (lc "foo") (some (lc "x"))
        AuthenticationLevel.LEVEL_GUEST =
      do_command_or_setting envD (lc "foo") (some (lc "x"))
        AuthenticationLevel.LEVEL_ADMIN) ∧
    (do_command_or_setting envD (lc "foo") (some (lc "x"))
        AuthenticationLevel.LEVEL_GUEST).fst ≠ Error.AuthenticationFailed :=
  flat_setting_auth_independent envD (lc "foo") (some (lc "x"))
    AuthenticationLevel.LEVEL_GUEST AuthenticationLevel.LEVEL_ADMIN
    (by decide) (by decide) (Or.inl (by decide))
    (by
      intro s hs v
      simp [envD] at hs
      rcases hs with h | h <;> subst h <;> simp [sFoo, sPin])

/-- Claim C3 (code bug): the codec does produce three distinct value
states (separator absent, present-but-empty, present-non-empty), but the
dispatcher inspects the value only through `string_view::empty()`, which
conflates a present-but-empty value with an absent one: `$foo=` on a flat
setting displays the current value exactly like `$foo` instead of writing
the empty string. -/
theorem value_states_conflated :
    splitAtChar '=' (lc "foo=") = (lc "foo", some []) ∧
    splitAtChar '=' (lc "foo") = (lc "foo", none) ∧
    svEmpty (some []) = svEmpty none ∧
    settings_execute_line envD (lc "$foo=") AuthenticationLevel.LEVEL_ADMIN =
      (Error.Ok, [Effect.showSetting (lc "foo") (lc "bar")]) ∧
    settings_execute_line envD (lc "$foo") AuthenticationLevel.LEVEL_ADMIN =
      (Error.Ok, [Effect.showSetting (lc "foo") (lc "bar")]) := by
  refine ⟨by decide, by decide, rfl, by decide, by decide⟩

end FluidNC
